import Mathlib

/-!
Verification of the Pokemon Showdown replay scraper (showdown_scraper).

The development shallowly embeds the core of `scraper.py`, `db/database.py`,
`db/models.py` and `storage.py`:

* pure helpers (`_filter_by_elo`, `insert_replay`) become Lean functions;
* the `ReplayScraper.run_job` loop becomes a step function over an explicit
  `RunState`, driven by a trace of environment events (fresh job-row lookups,
  search outcomes, exceptions, shutdown signals);
* the `LogFetcher.run` sweep becomes a fuel-indexed loop over a store model;
* `LogStorage` becomes an association-list file system parameterised by the
  gzip codec (an external library, taken as a compress/decompress pair).

Python integers are modelled as `Int`; wall-clock reads (`time.time()`) are
ambient I/O and are fixed to `0` in audit entries; `time.sleep` calls are
counted rather than performed.
-/

namespace Scraper

/-- Replay metadata row, mirroring `db/models.py` `Replay` (the `log` body is
stored separately).  `rating = 0` means unranked. -/
structure Replay where
  id : String
  format_id : String
  p1_name : String
  p2_name : String
  p1_id : String
  p2_id : String
  upload_time : Int
  rating : Int
  views : Int
  log_fetched : Bool
  log_size : Int
  scraped_at : Int
deriving Repr, DecidableEq

/-- Scraper job state, mirroring `db/models.py` `ScraperJob`.  The wall-clock
bookkeeping fields `started_at` / `updated_at` and the opaque `config_json`
and row `id` are not used by the engine logic and are omitted. -/
structure ScraperJob where
  job_name : String
  format_id : Option String
  user_filter : Option String
  min_elo : Int
  max_elo : Option Int
  last_timestamp : Option Int
  status : String
  total_fetched : Int
  total_stored : Int
deriving Repr, DecidableEq

/-- Audit log entry, mirroring `db/models.py` `LogEntry`.  The `timestamp`
comes from `time.time()` in the source; the model fixes it to `0`. -/
structure LogEntry where
  job_name : String
  timestamp : Int
  level : String
  message : String
deriving Repr, DecidableEq

/-- `LogEntry.info` constructor from `db/models.py`. -/
def LogEntry.info (job_name message : String) : LogEntry :=
  ⟨job_name, 0, "info", message⟩

/-- `LogEntry.warning` constructor from `db/models.py`. -/
def LogEntry.warning (job_name message : String) : LogEntry :=
  ⟨job_name, 0, "warning", message⟩

/-- `LogEntry.error` constructor from `db/models.py`. -/
def LogEntry.error (job_name message : String) : LogEntry :=
  ⟨job_name, 0, "error", message⟩

/-- The ELO predicate applied to one replay inside
`ReplayScraper._filter_by_elo` (scraper.py lines 207-211):
`rating = replay.rating or 0; rating >= min_elo and (max_elo is None or
rating <= max_elo)`.  On `Int`, `replay.rating or 0` is the identity
(`0 or 0 == 0`). -/
def eloMatch (min_elo : Int) (max_elo : Option Int) (r : Replay) : Bool :=
  min_elo ≤ r.rating &&
    (match max_elo with
     | none => true
     | some m => r.rating ≤ m)

/-- `ReplayScraper._filter_by_elo` (scraper.py lines 199-212). -/
def filter_by_elo (replays : List Replay) (min_elo : Int) (max_elo : Option Int) :
    List Replay :=
  replays.filter (eloMatch min_elo max_elo)

/-- `Database.insert_replay` (db/database.py lines 79-109): the `replays`
table has `id TEXT PRIMARY KEY` (schema.py), so the INSERT raises
`sqlite3.IntegrityError` exactly when a row with the same `id` exists; the
method catches it and returns `False`, leaving the table unchanged.
Returns `(inserted?, table after the call)`; the table is a row list in
insertion order. -/
def insert_replay (db : List Replay) (r : Replay) : Bool × List Replay :=
  if db.any (fun x => x.id == r.id) then (false, db) else (true, db ++ [r])

/-- The insertion loop of `run_job` (scraper.py lines 152-155): insert every
batch element in order, counting first-time insertions.  Returns the table
after all inserts and the number of fresh rows. -/
def insertAll : List Replay → List Replay → List Replay × Int
  | db, [] => (db, 0)
  | db, r :: rest =>
    let p := insert_replay db r
    let q := insertAll p.2 rest
    (q.1, q.2 + (if p.1 then 1 else 0))

/-- The in-place mutation performed by the log-fetch phase of a batch
(scraper.py lines 137-149): an ELO-matched replay whose log fetch succeeds
gets `log_fetched = True` and `log_size` set; all other replay objects are
left untouched.  `f` is the environment's response to
`api.get_replay_log(replay.id)` followed by `log_storage.save`: `some sz`
means a log body was returned and saved with compressed size `sz`, `none`
means no log (including client-level failures, which
`ShowdownAPI.get_replay_log` converts to `None`). -/
def applyLogFetch (f : String → Option Int) (min_elo : Int) (max_elo : Option Int)
    (r : Replay) : Replay :=
  if eloMatch min_elo max_elo r then
    match f r.id with
    | some sz => { r with log_fetched := true, log_size := sz }
    | none => r
  else r

/-- One environment response per `run_job` loop iteration.  Each iteration
first re-reads the job row (`db.get_job`, scraper.py line 102) and, if the
row exists and is not paused, performs the search; the event records the
combined outcome:
* `deleted` — the fresh lookup returned no row;
* `paused` — the fresh row has `status == "paused"`;
* `apiError msg` — the search raised `ShowdownAPIError` (after the client's
  own retries);
* `batch rs f` — the search returned `rs` (possibly empty); `f` answers the
  per-replay log fetches of this iteration;
* `raiseExn msg` — some other exception was raised during the iteration,
  reaching the outer handler (scraper.py lines 174-179);
* `shutdown` — a SIGINT/SIGTERM flipped `self.running` before this
  iteration's `while` test. -/
inductive IterEvent where
  | deleted
  | paused
  | apiError (msg : String)
  | batch (rs : List Replay) (f : String → Option Int)
  | raiseExn (msg : String)
  | shutdown

/-- State threaded through one `run_job` invocation: the `replays` table,
the `scrape_log` audit table, the in-memory job object, the `scraper_state`
row as last written by `db.update_job`, the invocation counters, the number
of `time.sleep(retry_delay)` calls, the replay ids for which a log-body
fetch was attempted, and the cooperative `self.running` flag. -/
structure RunState where
  stored : List Replay
  audit : List LogEntry
  job : ScraperJob
  persisted : ScraperJob
  total_new : Int
  batch_count : Int
  sleeps : Nat
  logAttempts : List String
  running : Bool

/-- Result of processing one loop-body event. -/
inductive StepOut where
  | next (s : RunState)
  | halt (s : RunState)
  | abort (s : RunState)

/-- The state carried by a `StepOut`. -/
def stepState : StepOut → RunState
  | .next s => s
  | .halt s => s
  | .abort s => s

/-- The top-of-loop limit test of `run_job` (scraper.py line 96):
`if limit and total_new >= limit` — Python truthiness makes `limit = None`
and `limit = 0` both skip the test. -/
def limitHit (limit : Option Int) (total_new : Int) : Bool :=
  match limit with
  | none => false
  | some l => l != 0 && total_new ≥ l

/-- The list of replay objects reaching the insertion loop: when
`fetch_logs` is set, the log-fetch phase has mutated the ELO-matched
elements in place (Python aliasing — `elo_matched` holds references into
`replays`). -/
def batchRows (fetch_logs : Bool) (f : String → Option Int) (min_elo : Int)
    (max_elo : Option Int) (rs : List Replay) : List Replay :=
  if fetch_logs then rs.map (applyLogFetch f min_elo max_elo) else rs

/-- Processing of one non-empty batch (scraper.py lines 129-161): bump the
batch counter and `total_fetched`, ELO-filter for log fetching, optionally
fetch logs for the matched summaries, insert every batch element, count
fresh insertions into `total_stored` / the invocation's new-record count,
advance the cursor to the last raw-batch element's upload time, and persist
the job row. -/
def batchStep (fetch_logs : Bool) (s : RunState) (rs : List Replay)
    (f : String → Option Int) : RunState :=
  let job1 := { s.job with total_fetched := s.job.total_fetched + rs.length }
  let elo_matched := filter_by_elo rs s.job.min_elo s.job.max_elo
  let rs2 := batchRows fetch_logs f s.job.min_elo s.job.max_elo rs
  let attempts := if fetch_logs then elo_matched.map (fun r => r.id) else []
  let q := insertAll s.stored rs2
  let job2 := { job1 with
    total_stored := job1.total_stored + q.2,
    last_timestamp :=
      match rs2.getLast? with
      | some r => some r.upload_time
      | none => job1.last_timestamp }
  { s with
    stored := q.1,
    job := job2,
    persisted := job2,
    total_new := s.total_new + q.2,
    batch_count := s.batch_count + 1,
    logAttempts := s.logAttempts ++ attempts }

/-- The body of one `run_job` loop iteration (scraper.py lines 101-172 and
the handler at lines 174-179), after the `while`/limit tests have already
passed. -/
def runStep (fetch_logs : Bool) (s : RunState) : IterEvent → StepOut
  | .deleted => .abort s
  | .paused => .halt { s with job := { s.job with status := "paused" } }
  | .apiError msg =>
    .next { s with
      audit := s.audit ++ [LogEntry.error s.job.job_name ("API error: " ++ msg)],
      sleeps := s.sleeps + 1 }
  | .batch rs f =>
    match rs with
    | [] => .halt { s with job := { s.job with status := "completed" } }
    | r0 :: rest => .next (batchStep fetch_logs s (r0 :: rest) f)
  | .raiseExn msg =>
    let job2 := { s.job with status := "paused" }
    .abort { s with
      job := job2,
      persisted := job2,
      audit := s.audit ++ [LogEntry.error s.job.job_name ("Unexpected error: " ++ msg)] }
  | .shutdown => .next { s with running := false }

/-- How the `run_job` loop was left. -/
inductive ExitKind where
  | exited
  | aborted
  | pending
deriving Repr, DecidableEq

/-- The `while self.running` loop of `run_job` (scraper.py lines 94-172),
driven by a finite event trace.  `pending` means the trace ran out while the
loop would have continued. -/
def runLoop (limit : Option Int) (fetch_logs : Bool) :
    List IterEvent → RunState → RunState × ExitKind
  | [], s =>
    if s.running = false then (s, .exited)
    else if limitHit limit s.total_new then
      ({ s with job := { s.job with status := "completed" } }, .exited)
    else (s, .pending)
  | ev :: rest, s =>
    if s.running = false then (s, .exited)
    else if limitHit limit s.total_new then
      ({ s with job := { s.job with status := "completed" } }, .exited)
    else
      match runStep fetch_logs s ev with
      | .next s2 => runLoop limit fetch_logs rest s2
      | .halt s2 => (s2, .exited)
      | .abort s2 => (s2, .aborted)

/-- The state in which `run_job` enters its loop (scraper.py lines 82-91):
status forced to `"running"`, the row persisted, a start audit entry
written, counters zeroed. -/
def initState (stored0 : List Replay) (job0 : ScraperJob) : RunState :=
  let job1 := { job0 with status := "running" }
  { stored := stored0
    audit := [LogEntry.info job0.job_name ("Started job: " ++ job0.job_name)]
    job := job1
    persisted := job1
    total_new := 0
    batch_count := 0
    sleeps := 0
    logAttempts := []
    running := true }

/-- `ReplayScraper.run_job` (scraper.py lines 60-197) for an existing job:
run the loop; on an abort (job deleted, or exception caught by the handler)
return `False` at once; otherwise apply the post-loop processing (lines
181-197): park a signal-interrupted job in `"paused"`, persist, append the
final audit entry, and report whether the job completed.  Returns `none`
when the event trace ended with the loop still running. -/
def run_job (stored0 : List Replay) (job0 : ScraperJob) (limit : Option Int)
    (fetch_logs : Bool) (events : List IterEvent) : RunState × Option Bool :=
  let r := runLoop limit fetch_logs events (initState stored0 job0)
  match r.2 with
  | .aborted => (r.1, some false)
  | .pending => (r.1, none)
  | .exited =>
    let s := r.1
    let job2 := if s.running = false ∧ s.job.status = "running" then
        { s.job with status := "paused" }
      else s.job
    let s2 := { s with
      job := job2,
      persisted := job2,
      audit := s.audit ++ [LogEntry.info job2.job_name
        ("Job " ++ job2.status ++ ": " ++ toString job2.total_fetched ++
         " fetched, " ++ toString job2.total_stored ++ " stored")] }
    (s2, some (job2.status == "completed"))

/-! ### LogStorage (storage.py)

The gzip codec is an external library; the model takes it as a
`compress`/`decompress` pair over an abstract compressed representation
`α`, together with the file-size observation `byteSize` (`stat().st_size`).
The directory tree is an association list from full paths to compressed
bodies; `mkdir` is a no-op in the model. -/

/-- A file-system path, as a list of components. -/
abbrev FsPath := List String

/-- Write a file, overwriting any previous content at the path. -/
def fsWrite {α : Type} (fs : List (FsPath × α)) (p : FsPath) (v : α) :
    List (FsPath × α) :=
  (p, v) :: fs

/-- Read a file; `none` when the path does not exist. -/
def fsRead {α : Type} : List (FsPath × α) → FsPath → Option α
  | [], _ => none
  | (q, v) :: rest, p => if q = p then some v else fsRead rest p

/-- `LogStorage._get_log_path` (storage.py lines 21-23):
`self.base_path / format_id / f"{replay_id}.log.gz"`. -/
def get_log_path (base_path : FsPath) (replay_id format_id : String) : FsPath :=
  base_path ++ [format_id, replay_id ++ ".log.gz"]

/-- `LogStorage.save` (storage.py lines 25-44): compress the log body,
write it at the log path, and return the path together with the written
file's size. -/
def LogStorage.save {α : Type} (compress : String → α) (byteSize : α → Int)
    (base_path : FsPath) (fs : List (FsPath × α))
    (replay_id format_id log : String) : List (FsPath × α) × FsPath × Int :=
  let p := get_log_path base_path replay_id format_id
  (fsWrite fs p (compress log), p, byteSize (compress log))

/-- `LogStorage.load` (storage.py lines 46-66): `None` when the file does
not exist; otherwise decompress, with decoding failures
(`gzip.BadGzipFile` / `OSError`) mapped to `none` by `decompress`. -/
def LogStorage.load {α : Type} (decompress : α → Option String)
    (base_path : FsPath) (fs : List (FsPath × α))
    (replay_id format_id : String) : Option String :=
  match fsRead fs (get_log_path base_path replay_id format_id) with
  | none => none
  | some data => decompress data

/-! ### The `Database` surface used by `LogFetcher.run` (db/database.py)

`LogFetcher.run` resolves its store calls dynamically; the tables below
record, from the source, which replay-side methods `Database` actually
defines (with their parameter names) and which calls `LogFetcher.run`
makes on `self.db` (with the argument names it passes). -/

/-- The replay-side methods defined by `Database` in db/database.py, with
their parameter names (excluding `self`). -/
def databaseReplayMethods : List (String × List String) :=
  [("insert_replay", ["replay"]),
   ("insert_replays_batch", ["replays"]),
   ("get_replay", ["replay_id"]),
   ("replay_exists", ["replay_id"]),
   ("mark_log_fetched", ["replay_id", "log_size"]),
   ("get_replays_without_logs", ["limit"]),
   ("query_replays", ["format_id", "min_elo", "max_elo", "player", "limit", "offset"]),
   ("get_replay_stats", [])]

/-- The store calls `LogFetcher.run` makes on `self.db`, in program order,
with the argument names passed (scraper.py lines 350, 380 and 397). -/
def logFetcherRunDbCalls : List (String × List String) :=
  [("count_replays_without_logs", ["min_elo", "max_elo", "format_id"]),
   ("get_replays_without_logs", ["limit", "min_elo", "max_elo", "format_id"]),
   ("mark_log_fetched", ["replay_id", "log_size"])]

/-! ### LogBackfillEngine (`LogFetcher.run`, scraper.py lines 330-408)

The loop body is translated from the source.  The two store queries it
needs (`count_replays_without_logs` and the filtered
`get_replays_without_logs`) are absent from src/ `db/database.py` and are
modelled from the spec (§6 `queryWithoutLogs(limit, minElo?, maxElo?,
format?)`). -/

/-- A stored row is a backfill candidate when its log is not fetched and it
matches the optional rating-band and format filters (the filter shapes of
`Database.query_replays`). -/
def backfillCandidate (min_elo max_elo : Option Int) (format_id : Option String)
    (r : Replay) : Bool :=
  !r.log_fetched &&
  (match min_elo with | none => true | some m => m ≤ r.rating) &&
  (match max_elo with | none => true | some m => r.rating ≤ m) &&
  (match format_id with | none => true | some fid => r.format_id == fid)

/-- Modelled from the spec: `queryWithoutLogs(limit, minElo?, maxElo?,
format?) -> [StoredReplay]` (§6), the filtered form of
`Database.get_replays_without_logs` that `LogFetcher.run` calls but src/
`db/database.py` does not define — candidate rows truncated to `limit`
(the spec fixes no result order; the unfiltered source query orders by
`upload_time DESC`, which none of the proved properties depend on). -/
def get_replays_without_logs_spec (db : List Replay) (limit : Nat)
    (min_elo max_elo : Option Int) (format_id : Option String) : List Replay :=
  ((db.filter (backfillCandidate min_elo max_elo format_id)).take limit)

/-- Modelled from the spec: the count of rows needing logs under the same
filters, used by `LogFetcher.run` at scraper.py line 350 but absent from
src/ `db/database.py`. -/
def count_replays_without_logs_spec (db : List Replay)
    (min_elo max_elo : Option Int) (format_id : Option String) : Nat :=
  (db.filter (backfillCandidate min_elo max_elo format_id)).length

/-- `Database.mark_log_fetched` (db/database.py lines 137-145): set
`log_fetched = 1` and `log_size` on the row with the given id. -/
def mark_log_fetched (db : List Replay) (replay_id : String) (log_size : Int) :
    List Replay :=
  db.map (fun r =>
    if r.id == replay_id then { r with log_fetched := true, log_size := log_size }
    else r)

/-- State threaded through one `LogFetcher.run` invocation: the `replays`
table, the running count of fetched logs, and the number of
`time.sleep(10)` backoff calls. -/
structure FetchState where
  db : List Replay
  total_fetched : Int
  sleeps : Nat
deriving Repr

/-- One per-replay step of the `LogFetcher.run` inner loop (scraper.py
lines 393-400).  `f` answers `api.get_replay_log` followed by
`log_storage.save`: `some sz` means a log body was returned and saved with
compressed size `sz`; `none` means no log (client failures are converted
to `None` by `ShowdownAPI.get_replay_log`, and the `except` arm skips). -/
def processOne (f : String → Option Int) (s : FetchState) (r : Replay) :
    FetchState :=
  match f r.id with
  | some sz =>
    { s with db := mark_log_fetched s.db r.id sz,
             total_fetched := s.total_fetched + 1 }
  | none => s

/-- The inner `for replay in replays` loop of `LogFetcher.run` (scraper.py
lines 389-403), including the end-of-body test
`if limit and total_fetched >= limit: break` (line 402, same Python
truthiness as `limitHit`).  Signals are not modelled (`self.running` stays
true). -/
def fetcherInner (f : String → Option Int) (limit : Option Int) :
    List Replay → FetchState → FetchState
  | [], s => s
  | r :: rest, s =>
    let s2 := processOne f s r
    if limitHit limit s2.total_fetched then s2
    else fetcherInner f limit rest s2

/-- The outer `while self.running` loop of `LogFetcher.run` (scraper.py
lines 375-406), driven by `fuel` iterations (the real loop may run
unboundedly).  Returns the final state and whether the loop exited by
`break` (`false` means the fuel ran out with the loop still going). -/
def fetcherLoop (f : String → Option Int) (limit : Option Int)
    (min_elo max_elo : Option Int) (format_id : Option String) :
    Nat → FetchState → FetchState × Bool
  | 0, s => (s, false)
  | fuel + 1, s =>
    let current_limit : Int :=
      match limit with
      | none => 10
      | some l => min 10 (l - s.total_fetched)
    if current_limit ≤ 0 then (s, true)
    else
      match get_replays_without_logs_spec s.db current_limit.toNat
          min_elo max_elo format_id with
      | [] =>
        match limit with
        | none =>
          fetcherLoop f limit min_elo max_elo format_id fuel
            { s with sleeps := s.sleeps + 1 }
        | some _ => (s, true)
      | r :: rest =>
        fetcherLoop f limit min_elo max_elo format_id fuel
          (fetcherInner f limit (r :: rest) s)

/-- `LogFetcher.run` (scraper.py lines 330-408) against the spec-modelled
store: count the candidates; if none, return 0 at once; otherwise run the
sweep loop from zero fetched and return the number of logs fetched. -/
def LogFetcher_run (f : String → Option Int) (db0 : List Replay)
    (limit : Option Int) (min_elo max_elo : Option Int)
    (format_id : Option String) (fuel : Nat) : Int :=
  if count_replays_without_logs_spec db0 min_elo max_elo format_id = 0 then 0
  else
    (fetcherLoop f limit min_elo max_elo format_id fuel
      { db := db0, total_fetched := 0, sleeps := 0 }).1.total_fetched

/-! ### Helper lemmas -/

/-- A replay table has a row with the given id. -/
def hasId (db : List Replay) (i : String) : Prop := ∃ x ∈ db, x.id = i

instance (db : List Replay) (i : String) : Decidable (hasId db i) :=
  List.decidableBEx _ db

theorem applyLogFetch_id (f : String → Option Int) (a : Int) (b : Option Int)
    (r : Replay) : (applyLogFetch f a b r).id = r.id := by
  unfold applyLogFetch
  split
  · cases f r.id <;> rfl
  · rfl

theorem applyLogFetch_upload (f : String → Option Int) (a : Int) (b : Option Int)
    (r : Replay) : (applyLogFetch f a b r).upload_time = r.upload_time := by
  unfold applyLogFetch
  split
  · cases f r.id <;> rfl
  · rfl

@[simp] theorem stepState_next (s : RunState) : stepState (.next s) = s := rfl

@[simp] theorem stepState_halt (s : RunState) : stepState (.halt s) = s := rfl

@[simp] theorem stepState_abort (s : RunState) : stepState (.abort s) = s := rfl

theorem insert_replay_of_hasId {db : List Replay} {r : Replay}
    (h : hasId db r.id) : insert_replay db r = (false, db) := by
  unfold insert_replay
  rw [if_pos]
  rw [List.any_eq_true]
  obtain ⟨x, hx, he⟩ := h
  exact ⟨x, hx, by simp [he]⟩

theorem insert_replay_of_not_hasId {db : List Replay} {r : Replay}
    (h : ¬ hasId db r.id) : insert_replay db r = (true, db ++ [r]) := by
  unfold insert_replay
  rw [if_neg]
  intro hc
  rw [List.any_eq_true] at hc
  obtain ⟨x, hx, he⟩ := hc
  exact h ⟨x, hx, by simpa using he⟩

theorem hasId_insert_replay (db : List Replay) (r : Replay) (i : String) :
    hasId (insert_replay db r).2 i ↔ hasId db i ∨ r.id = i := by
  by_cases h : hasId db r.id
  · rw [insert_replay_of_hasId h]
    constructor
    · exact fun hi => Or.inl hi
    · rintro (hi | he)
      · exact hi
      · obtain ⟨x, hx, hxe⟩ := h
        exact ⟨x, hx, hxe.trans he⟩
  · rw [insert_replay_of_not_hasId h]
    unfold hasId
    constructor
    · rintro ⟨x, hx, he⟩
      rcases List.mem_append.mp hx with hx | hx
      · exact Or.inl ⟨x, hx, he⟩
      · simp only [List.mem_singleton] at hx
        subst hx
        exact Or.inr he
    · rintro (⟨x, hx, he⟩ | he)
      · exact ⟨x, List.mem_append.mpr (Or.inl hx), he⟩
      · exact ⟨r, List.mem_append.mpr (Or.inr (by simp)), he⟩

theorem insertAll_hasId (rs : List Replay) : ∀ (db : List Replay) (i : String),
    hasId (insertAll db rs).1 i ↔ hasId db i ∨ ∃ r ∈ rs, r.id = i := by
  induction rs with
  | nil => intro db i; simp [insertAll]
  | cons r rest ih =>
    intro db i
    show hasId (insertAll (insert_replay db r).2 rest).1 i ↔ _
    rw [ih, hasId_insert_replay]
    constructor
    · rintro ((h | h) | ⟨x, hx, he⟩)
      · exact Or.inl h
      · exact Or.inr ⟨r, by simp, h⟩
      · exact Or.inr ⟨x, by simp [hx], he⟩
    · rintro (h | ⟨x, hx, he⟩)
      · exact Or.inl (Or.inl h)
      · rcases List.mem_cons.mp hx with hx | hx
        · subst hx; exact Or.inl (Or.inr he)
        · exact Or.inr ⟨x, hx, he⟩

theorem insertAll_of_all_present (rs : List Replay) : ∀ (db : List Replay),
    (∀ r ∈ rs, hasId db r.id) → insertAll db rs = (db, 0) := by
  induction rs with
  | nil => intro db _; rfl
  | cons r rest ih =>
    intro db h
    show (let p := insert_replay db r
          let q := insertAll p.2 rest
          (q.1, q.2 + (if p.1 then 1 else 0))) = (db, 0)
    rw [insert_replay_of_hasId (h r (by simp))]
    simp only []
    rw [ih db (fun x hx => h x (by simp [hx]))]
    simp

theorem batchRows_id_mem (fl : Bool) (f : String → Option Int) (a : Int)
    (b : Option Int) (rs : List Replay) (r : Replay) (h : r ∈ rs) :
    ∃ x ∈ batchRows fl f a b rs, x.id = r.id := by
  unfold batchRows
  cases fl with
  | false => exact ⟨r, by simpa using h, rfl⟩
  | true =>
    refine ⟨applyLogFetch f a b r, ?_, applyLogFetch_id f a b r⟩
    simp only [if_pos]
    exact List.mem_map.mpr ⟨r, h, rfl⟩

theorem batchRows_getLast_upload (fl : Bool) (f : String → Option Int) (a : Int)
    (b : Option Int) (rs : List Replay) :
    (batchRows fl f a b rs).getLast?.map (fun r => r.upload_time)
      = rs.getLast?.map (fun r => r.upload_time) := by
  unfold batchRows
  cases fl with
  | false => rfl
  | true =>
    simp only [if_pos, List.getLast?_map, Option.map_map]
    cases rs.getLast? with
    | none => rfl
    | some r => simp [Function.comp, applyLogFetch_upload]

theorem batchRows_mem_id (fl : Bool) (f : String → Option Int) (a : Int)
    (b : Option Int) (rs : List Replay) (x : Replay)
    (h : x ∈ batchRows fl f a b rs) : ∃ r ∈ rs, x.id = r.id := by
  unfold batchRows at h
  cases fl with
  | false => exact ⟨x, by simpa using h, rfl⟩
  | true =>
    simp only [if_pos] at h
    obtain ⟨r, hr, he⟩ := List.mem_map.mp h
    exact ⟨r, hr, by rw [← he, applyLogFetch_id]⟩

/-! ### Sample data (used by witnesses) -/

/-- A concrete replay summary with the given id, format, upload time and
rating. -/
def mkReplay (i fid : String) (up rating : Int) : Replay :=
  { id := i, format_id := fid, p1_name := "Alice", p2_name := "Bob",
    p1_id := "alice", p2_id := "bob", upload_time := up, rating := rating,
    views := 0, log_fetched := false, log_size := 0, scraped_at := 0 }

/-- A concrete job with `min_elo = 1500`, `max_elo` unset and a set cursor. -/
def sampleJob : ScraperJob :=
  { job_name := "gen9ou-elo1500", format_id := some "gen9ou",
    user_filter := none, min_elo := 1500, max_elo := none,
    last_timestamp := some 200, status := "idle",
    total_fetched := 0, total_stored := 0 }

/-- The run state `run_job` would enter its loop with for `sampleJob` over
an empty store. -/
def sampleState : RunState := initState [] sampleJob

/-- A batch with ratings 1200, 1500, 1800 (newest first by upload time). -/
def batch1500 : List Replay :=
  [mkReplay "gen9ou-1" "gen9ou" 100 1200,
   mkReplay "gen9ou-2" "gen9ou" 90 1500,
   mkReplay "gen9ou-3" "gen9ou" 80 1800]

/-! ### Claim theorems -/

/-- C4: inserting a replay whose id is already stored never creates a
second row — the insert returns `false` and leaves the table unchanged —
and during a batch such duplicates contribute nothing to `total_stored` or
to the invocation's new-record count. -/
theorem insert_dedup_spec :
    (∀ (db : List Replay) (r : Replay), hasId db r.id →
       insert_replay db r = (false, db))
    ∧ (∀ (db rs : List Replay), (∀ r ∈ rs, hasId db r.id) →
       insertAll db rs = (db, 0))
    ∧ (∀ (fl : Bool) (s : RunState) (f : String → Option Int) (r0 : Replay)
         (rest : List Replay), (∀ r ∈ r0 :: rest, hasId s.stored r.id) →
         (stepState (runStep fl s (.batch (r0 :: rest) f))).total_new = s.total_new
         ∧ (stepState (runStep fl s (.batch (r0 :: rest) f))).job.total_stored
             = s.job.total_stored
         ∧ (stepState (runStep fl s (.batch (r0 :: rest) f))).stored = s.stored) := by
  refine ⟨fun db r h => insert_replay_of_hasId h,
          fun db rs h => insertAll_of_all_present rs db h, ?_⟩
  intro fl s f r0 rest h
  have hall : ∀ x ∈ batchRows fl f s.job.min_elo s.job.max_elo (r0 :: rest),
      hasId s.stored x.id := by
    intro x hx
    obtain ⟨r, hr, he⟩ := batchRows_mem_id fl f s.job.min_elo s.job.max_elo _ x hx
    rw [he]
    exact h r hr
  have hins := insertAll_of_all_present _ s.stored hall
  show (batchStep fl s (r0 :: rest) f).total_new = s.total_new
      ∧ (batchStep fl s (r0 :: rest) f).job.total_stored = s.job.total_stored
      ∧ (batchStep fl s (r0 :: rest) f).stored = s.stored
  simp [batchStep, hins]

/-- C4 witness: a second insert of an already-present id is a no-op. -/
theorem insert_dedup_spec_witness :
    insert_replay [mkReplay "gen9ou-1" "gen9ou" 100 1200]
        (mkReplay "gen9ou-1" "gen9ou" 55 1700)
      = (false, [mkReplay "gen9ou-1" "gen9ou" 100 1200]) :=
  insert_dedup_spec.1 _ _ (by decide)

/-- C5: a transport failure of the search call logs an error audit entry,
counts one retry-delay sleep, and continues with the same iteration: the
cursor, totals, store and job status are untouched and the loop keeps
running. -/
theorem search_failure_retry_spec :
    (∀ (fl : Bool) (s : RunState) (msg : String),
       runStep fl s (.apiError msg) =
         .next { s with
           audit := s.audit ++ [LogEntry.error s.job.job_name ("API error: " ++ msg)],
           sleeps := s.sleeps + 1 })
    ∧ (∀ (limit : Option Int) (fl : Bool) (s : RunState) (msg : String)
         (rest : List IterEvent),
         s.running = true → limitHit limit s.total_new = false →
         runLoop limit fl (.apiError msg :: rest) s =
           runLoop limit fl rest { s with
             audit := s.audit ++ [LogEntry.error s.job.job_name ("API error: " ++ msg)],
             sleeps := s.sleeps + 1 }) := by
  constructor
  · intro fl s msg
    rfl
  · intro limit fl s msg rest h1 h2
    simp [runLoop, h1, h2, runStep]

/-- C5 witness. -/
theorem search_failure_retry_spec_witness :
    runLoop none false [IterEvent.apiError "timeout"] sampleState =
      runLoop none false [] { sampleState with
        audit := sampleState.audit ++
          [LogEntry.error sampleState.job.job_name ("API error: " ++ "timeout")],
        sleeps := sampleState.sleeps + 1 } :=
  search_failure_retry_spec.2 none false sampleState "timeout" [] rfl rfl

/-- C6: any other exception raised during a batch is caught by the outer
handler, which appends an error audit entry, sets and persists the job
status to `"paused"` (never leaving it `"running"`), and makes `run_job`
return `false`. -/
theorem exception_pause_spec :
    (∀ (fl : Bool) (s : RunState) (msg : String),
       runStep fl s (.raiseExn msg) =
         .abort { s with
           job := { s.job with status := "paused" },
           persisted := { s.job with status := "paused" },
           audit := s.audit ++
             [LogEntry.error s.job.job_name ("Unexpected error: " ++ msg)] })
    ∧ (∀ (fl : Bool) (s : RunState) (msg : String),
       (stepState (runStep fl s (.raiseExn msg))).job.status = "paused"
       ∧ (stepState (runStep fl s (.raiseExn msg))).persisted.status = "paused")
    ∧ (∀ (stored0 : List Replay) (job0 : ScraperJob) (limit : Option Int)
         (fl : Bool) (evs : List IterEvent),
         (runLoop limit fl evs (initState stored0 job0)).2 = ExitKind.aborted →
         (run_job stored0 job0 limit fl evs).2 = some false) := by
  refine ⟨fun fl s msg => rfl, fun fl s msg => ⟨rfl, rfl⟩, ?_⟩
  intro stored0 job0 limit fl evs h
  simp only [run_job]
  rw [h]

/-- C6 witness: a concrete trace whose second iteration raises. -/
theorem exception_pause_spec_witness :
    (run_job [] sampleJob none false
        [IterEvent.batch batch1500 (fun _ => none), IterEvent.raiseExn "boom"]).2
      = some false :=
  exception_pause_spec.2.2 [] sampleJob none false _ (by decide)

/-- C7: an empty search result halts the loop with the job marked
`"completed"` and the cursor untouched; a one-batch empty run of `run_job`
returns `true` with the persisted status `"completed"` and `lastTimestamp`
exactly as it started. -/
theorem empty_result_completed_spec :
    (∀ (fl : Bool) (s : RunState) (f : String → Option Int),
       runStep fl s (.batch [] f) =
         .halt { s with job := { s.job with status := "completed" } })
    ∧ (∀ (fl : Bool) (s : RunState) (f : String → Option Int),
       (stepState (runStep fl s (.batch [] f))).job.last_timestamp
         = s.job.last_timestamp)
    ∧ (∀ (limit : Option Int) (fl : Bool) (s : RunState) (f : String → Option Int)
         (rest : List IterEvent),
         s.running = true → limitHit limit s.total_new = false →
         runLoop limit fl (.batch [] f :: rest) s =
           ({ s with job := { s.job with status := "completed" } }, .exited))
    ∧ (∀ (stored0 : List Replay) (job0 : ScraperJob) (fl : Bool)
         (f : String → Option Int),
         (run_job stored0 job0 none fl [.batch [] f]).2 = some true
         ∧ (run_job stored0 job0 none fl [.batch [] f]).1.job.last_timestamp
             = job0.last_timestamp
         ∧ (run_job stored0 job0 none fl [.batch [] f]).1.persisted.status
             = "completed") := by
  refine ⟨fun fl s f => rfl, fun fl s f => rfl, ?_, ?_⟩
  · intro limit fl s f rest h1 h2
    simp [runLoop, h1, h2, runStep]
  · intro stored0 job0 fl f
    exact ⟨rfl, rfl, rfl⟩

/-- C7 witness. -/
theorem empty_result_completed_spec_witness :
    runLoop none false [IterEvent.batch [] (fun _ => none)] sampleState =
      ({ sampleState with
          job := { sampleState.job with status := "completed" } }, .exited) :=
  empty_result_completed_spec.2.2.1 none false sampleState (fun _ => none) [] rfl rfl

theorem eloMatch_iff (minE : Int) (maxE : Option Int) (r : Replay) :
    eloMatch minE maxE r = true ↔
      (minE ≤ r.rating ∧ (maxE = none ∨ ∃ m, maxE = some m ∧ r.rating ≤ m)) := by
  unfold eloMatch
  cases maxE with
  | none => simp
  | some m => simp

theorem batch_inserts_all (fl : Bool) (s : RunState) (f : String → Option Int)
    (r0 : Replay) (rest : List Replay) :
    ∀ r ∈ r0 :: rest,
      hasId (stepState (runStep fl s (.batch (r0 :: rest) f))).stored r.id := by
  intro r hr
  show hasId (insertAll s.stored
      (batchRows fl f s.job.min_elo s.job.max_elo (r0 :: rest))).1 r.id
  rw [insertAll_hasId]
  obtain ⟨x, hx, he⟩ := batchRows_id_mem fl f s.job.min_elo s.job.max_elo
    (r0 :: rest) r hr
  exact Or.inr ⟨x, hx, he⟩

/-- C3: the ELO predicate gates log-body fetching only — with log fetching
enabled, exactly the `_filter_by_elo` survivors have a log fetch attempted,
with it disabled none do — while every batch element is inserted into the
store regardless of its rating; concretely, with `min_elo = 1500` and
`max_elo` unset, a batch with ratings 1200/1500/1800 yields exactly 2
log-fetch-eligible summaries while all 3 are stored. -/
theorem elo_gate_spec :
    (∀ (rs : List Replay) (minE : Int) (maxE : Option Int) (r : Replay),
       r ∈ filter_by_elo rs minE maxE ↔
         r ∈ rs ∧ (minE ≤ r.rating ∧
           (maxE = none ∨ ∃ m, maxE = some m ∧ r.rating ≤ m)))
    ∧ (∀ (s : RunState) (f : String → Option Int) (r0 : Replay)
         (rest : List Replay),
       (stepState (runStep true s (.batch (r0 :: rest) f))).logAttempts
         = s.logAttempts ++
           (filter_by_elo (r0 :: rest) s.job.min_elo s.job.max_elo).map
             (fun r => r.id))
    ∧ (∀ (s : RunState) (f : String → Option Int) (r0 : Replay)
         (rest : List Replay),
       (stepState (runStep false s (.batch (r0 :: rest) f))).logAttempts
         = s.logAttempts)
    ∧ (∀ (fl : Bool) (s : RunState) (f : String → Option Int) (r0 : Replay)
         (rest : List Replay),
       ∀ r ∈ r0 :: rest,
         hasId (stepState (runStep fl s (.batch (r0 :: rest) f))).stored r.id)
    ∧ ((filter_by_elo batch1500 1500 none).length = 2
       ∧ (stepState (runStep true sampleState
           (.batch batch1500 (fun _ => none)))).stored.length = 3
       ∧ (stepState (runStep true sampleState
           (.batch batch1500 (fun _ => none)))).logAttempts.length = 2) := by
  refine ⟨?_, ?_, ?_, batch_inserts_all, by decide⟩
  · intro rs minE maxE r
    unfold filter_by_elo
    rw [List.mem_filter, eloMatch_iff]
  · intro s f r0 rest
    rfl
  · intro s f r0 rest
    show (batchStep false s (r0 :: rest) f).logAttempts = s.logAttempts
    simp [batchStep]

/-- C3 witness: the membership characterisation and the store-everything
conjunct at a concrete batch element. -/
theorem elo_gate_spec_witness :
    hasId (stepState (runStep true sampleState
        (.batch batch1500 (fun _ => none)))).stored
      (mkReplay "gen9ou-1" "gen9ou" 100 1200).id :=
  elo_gate_spec.2.2.2.1 true sampleState (fun _ => none)
    (mkReplay "gen9ou-1" "gen9ou" 100 1200)
    [mkReplay "gen9ou-2" "gen9ou" 90 1500, mkReplay "gen9ou-3" "gen9ou" 80 1800]
    (mkReplay "gen9ou-1" "gen9ou" 100 1200) (by decide)

/-- Seven fresh replays in one batch (newest first). -/
def batchSeven : List Replay :=
  [mkReplay "gen9ou-11" "gen9ou" 100 1600,
   mkReplay "gen9ou-12" "gen9ou" 95 1600,
   mkReplay "gen9ou-13" "gen9ou" 90 1600,
   mkReplay "gen9ou-14" "gen9ou" 85 1600,
   mkReplay "gen9ou-15" "gen9ou" 80 1600,
   mkReplay "gen9ou-16" "gen9ou" 75 1600,
   mkReplay "gen9ou-17" "gen9ou" 70 1600]

/-- C2 counterexample: with `limit = 5`, a single over-shooting batch of 7
fresh replays makes the job store 7 new replays — not exactly 5 — before
the limit check stops it (the run still ends `completed`). -/
theorem limit_exact_counterexample :
    (run_job [] sampleJob (some 5) false
        [IterEvent.batch batchSeven (fun _ => none)]).2 = some true
    ∧ (run_job [] sampleJob (some 5) false
        [IterEvent.batch batchSeven (fun _ => none)]).1.total_new = 7
    ∧ (run_job [] sampleJob (some 5) false
        [IterEvent.batch batchSeven (fun _ => none)]).1.stored.length = 7
    ∧ (7 : Int) ≠ 5 := by
  refine ⟨rfl, rfl, rfl, by decide⟩

/-- C2 (amended): the limit test `new_records_this_run >= limit` runs at
the top of the loop, before any event of the next iteration is consumed,
so a truthy limit that has been reached stops the job (marked
`"completed"`) without starting another batch; it never truncates a batch
in progress — every element of a started batch is inserted — so the final
new-record count can exceed the limit; a reached limit implies at least
`N` new records; and a limit of `0` is falsy and never triggers the
check. -/
theorem limit_check_spec :
    (∀ (limit : Option Int) (fl : Bool) (ev : IterEvent)
       (rest : List IterEvent) (s : RunState),
       s.running = true → limitHit limit s.total_new = true →
       runLoop limit fl (ev :: rest) s =
         ({ s with job := { s.job with status := "completed" } }, .exited))
    ∧ (∀ (N t : Int), limitHit (some N) t = true → N ≠ 0 ∧ t ≥ N)
    ∧ (∀ (t : Int), limitHit (some 0) t = false)
    ∧ (∀ (fl : Bool) (s : RunState) (f : String → Option Int) (r0 : Replay)
         (rest : List Replay),
       ∀ r ∈ r0 :: rest,
         hasId (stepState (runStep fl s (.batch (r0 :: rest) f))).stored r.id) := by
  refine ⟨?_, ?_, ?_, batch_inserts_all⟩
  · intro limit fl ev rest s h1 h2
    simp [runLoop, h1, h2]
  · intro N t h
    simp only [limitHit, Bool.and_eq_true, bne_iff_ne, decide_eq_true_eq] at h
    exact ⟨h.1, h.2⟩
  · intro t
    simp [limitHit]

/-- C2 witness: a reached limit of 5 stops the loop before the next event
is consumed. -/
theorem limit_check_spec_witness :
    runLoop (some 5) false [IterEvent.deleted] { sampleState with total_new := 7 }
      = ({ sampleState with
            total_new := 7,
            job := { sampleState.job with status := "completed" } }, .exited) :=
  limit_check_spec.1 (some 5) false IterEvent.deleted [] _ rfl (by decide)

/-- Cursor comparison: once set, the cursor stays set and does not
increase. -/
def cursorLE (c2 c1 : Option Int) : Prop :=
  ∀ t, c1 = some t → ∃ u, c2 = some u ∧ u ≤ t

theorem cursorLE_refl (c : Option Int) : cursorLE c c :=
  fun t h => ⟨t, h, le_refl t⟩

theorem cursorLE_trans {c3 c2 c1 : Option Int} (h32 : cursorLE c3 c2)
    (h21 : cursorLE c2 c1) : cursorLE c3 c1 := by
  intro t h1
  obtain ⟨u, h2, hu⟩ := h21 t h1
  obtain ⟨v, h3, hv⟩ := h32 u h2
  exact ⟨v, h3, le_trans hv hu⟩

/-- The client contract for one event at the state where it is served: a
batch returned by `search(before = T)` holds only replays strictly older
than `T`. -/
def eventContract (s : RunState) : IterEvent → Prop
  | .batch rs _ => ∀ t, s.job.last_timestamp = some t → ∀ r ∈ rs, r.upload_time < t
  | _ => True

/-- The client contract along a trace, mirroring the loop: each event the
loop actually processes satisfies `eventContract` at the state where it is
served (iterations skipped because the loop already stopped are
unconstrained). -/
def ClientContract (limit : Option Int) (fetch_logs : Bool) :
    List IterEvent → RunState → Prop
  | [], _ => True
  | ev :: rest, s =>
    s.running = false ∨ limitHit limit s.total_new = true ∨
      (eventContract s ev ∧
        ∀ s2, runStep fetch_logs s ev = .next s2 →
          ClientContract limit fetch_logs rest s2)

theorem batchStep_cursor (fl : Bool) (s : RunState) (f : String → Option Int)
    (rs : List Replay) (hne : rs ≠ []) :
    (batchStep fl s rs f).job.last_timestamp
      = rs.getLast?.map (fun r => r.upload_time) := by
  have hne2 : batchRows fl f s.job.min_elo s.job.max_elo rs ≠ [] := by
    unfold batchRows
    cases fl with
    | false => simpa using hne
    | true => simp [hne]
  rcases hq : (batchRows fl f s.job.min_elo s.job.max_elo rs).getLast? with _ | y
  · rw [List.getLast?_eq_none_iff] at hq
    exact absurd hq hne2
  · have hb := batchRows_getLast_upload fl f s.job.min_elo s.job.max_elo rs
    rw [hq] at hb
    simp only [batchStep, hq]
    simpa using hb

theorem runStep_cursor_nonbatch (fl : Bool) (s : RunState) (ev : IterEvent)
    (h : ∀ rs f, ev ≠ IterEvent.batch rs f) :
    (stepState (runStep fl s ev)).job.last_timestamp = s.job.last_timestamp := by
  cases ev with
  | batch rs f => exact absurd rfl (h rs f)
  | deleted => rfl
  | paused => rfl
  | apiError msg => rfl
  | raiseExn msg => rfl
  | shutdown => rfl

theorem runStep_cursorLE (fl : Bool) (s : RunState) (ev : IterEvent)
    (hc : eventContract s ev) :
    cursorLE (stepState (runStep fl s ev)).job.last_timestamp
      s.job.last_timestamp := by
  cases ev with
  | batch rs f =>
    cases rs with
    | nil => exact cursorLE_refl _
    | cons r0 rest =>
      intro t ht
      have hcur : (stepState (runStep fl s (.batch (r0 :: rest) f))).job.last_timestamp
          = (r0 :: rest).getLast?.map (fun r => r.upload_time) :=
        batchStep_cursor fl s f (r0 :: rest) (by simp)
      rcases hq : (r0 :: rest).getLast? with _ | y
      · rw [List.getLast?_eq_none_iff] at hq
        exact absurd hq (by simp)
      · refine ⟨y.upload_time, by rw [hcur, hq]; rfl, ?_⟩
        have hymem : y ∈ r0 :: rest := by
          obtain ⟨hne, he⟩ := List.mem_getLast?_eq_getLast (by rw [hq]; rfl)
          rw [he]
          exact List.getLast_mem hne
        exact le_of_lt (hc t ht y hymem)
  | deleted => exact cursorLE_refl _
  | paused => exact cursorLE_refl _
  | apiError msg => exact cursorLE_refl _
  | raiseExn msg => exact cursorLE_refl _
  | shutdown => exact cursorLE_refl _

theorem runLoop_cursorLE (limit : Option Int) (fl : Bool) :
    ∀ (evs : List IterEvent) (s : RunState), ClientContract limit fl evs s →
      cursorLE (runLoop limit fl evs s).1.job.last_timestamp
        s.job.last_timestamp := by
  intro evs
  induction evs with
  | nil =>
    intro s _
    unfold runLoop
    split_ifs <;> exact cursorLE_refl _
  | cons ev rest ih =>
    intro s hc
    show cursorLE (if s.running = false then (s, ExitKind.exited)
        else if limitHit limit s.total_new = true then
          ({ s with job := { s.job with status := "completed" } }, ExitKind.exited)
        else match runStep fl s ev with
          | .next s2 => runLoop limit fl rest s2
          | .halt s2 => (s2, ExitKind.exited)
          | .abort s2 => (s2, ExitKind.aborted)).1.job.last_timestamp
      s.job.last_timestamp
    split_ifs with h1 h2
    · exact cursorLE_refl _
    · exact cursorLE_refl _
    · rcases hc with hc | hc | ⟨hce, hck⟩
      · exact absurd hc h1
      · exact absurd hc h2
      · have hcur := runStep_cursorLE fl s ev hce
        cases hstep : runStep fl s ev with
        | next s2 =>
          rw [hstep] at hcur
          simp only [hstep]
          exact cursorLE_trans (ih s2 (hck s2 hstep)) hcur
        | halt s2 =>
          rw [hstep] at hcur
          simp only [hstep]
          exact hcur
        | abort s2 =>
          rw [hstep] at hcur
          simp only [hstep]
          exact hcur

/-- C1: the cursor is set, after every non-empty batch, to the upload time
of the last element of the raw batch (no freshness hypothesis — it
advances even when every record was a duplicate); no other event touches
it, and the `run_job` wrapper never touches it either; and along any trace
satisfying the client contract (`search(before = T)` returns only replays
older than `T`), the cursor is monotonically non-increasing. -/
theorem cursor_advance_spec :
    (∀ (fl : Bool) (s : RunState) (ev : IterEvent),
       (∀ rs f, ev ≠ IterEvent.batch rs f) →
       (stepState (runStep fl s ev)).job.last_timestamp = s.job.last_timestamp)
    ∧ (∀ (fl : Bool) (s : RunState) (f : String → Option Int) (r0 : Replay)
         (rest : List Replay),
       (stepState (runStep fl s (.batch (r0 :: rest) f))).job.last_timestamp
         = (r0 :: rest).getLast?.map (fun r => r.upload_time))
    ∧ (∀ (limit : Option Int) (fl : Bool) (evs : List IterEvent) (s : RunState),
       ClientContract limit fl evs s →
       cursorLE (runLoop limit fl evs s).1.job.last_timestamp
         s.job.last_timestamp)
    ∧ (∀ (stored0 : List Replay) (job0 : ScraperJob) (limit : Option Int)
         (fl : Bool) (evs : List IterEvent),
       (run_job stored0 job0 limit fl evs).1.job.last_timestamp
         = (runLoop limit fl evs (initState stored0 job0)).1.job.last_timestamp
       ∧ (initState stored0 job0).job.last_timestamp = job0.last_timestamp) := by
  refine ⟨runStep_cursor_nonbatch,
          fun fl s f r0 rest => batchStep_cursor fl s f (r0 :: rest) (by simp),
          runLoop_cursorLE, ?_⟩
  intro stored0 job0 limit fl evs
  refine ⟨?_, rfl⟩
  unfold run_job
  cases hr : (runLoop limit fl evs (initState stored0 job0)).2 with
  | aborted => simp [hr]
  | pending => simp [hr]
  | exited =>
    simp only [hr]
    split
    · rfl
    · rfl

/-- C1 witness: a non-batch event leaves the cursor as it was, and a
contract-respecting one-batch trace can only move the cursor backwards. -/
theorem cursor_advance_spec_witness :
    ((stepState (runStep false sampleState IterEvent.deleted)).job.last_timestamp
        = sampleState.job.last_timestamp)
    ∧ cursorLE (runLoop none false
        [IterEvent.batch batch1500 (fun _ => none)] sampleState).1.job.last_timestamp
        sampleState.job.last_timestamp := by
  constructor
  · exact cursor_advance_spec.1 false sampleState IterEvent.deleted
      (by intro rs f h; cases h)
  · refine cursor_advance_spec.2.2.1 none false _ sampleState ?_
    refine Or.inr (Or.inr ⟨?_, ?_⟩)
    · intro t ht r hr
      have ht2 : t = 200 := by
        have : (some 200 : Option Int) = some t := ht
        simpa using this.symm
      subst ht2
      have : r = mkReplay "gen9ou-1" "gen9ou" 100 1200
          ∨ r = mkReplay "gen9ou-2" "gen9ou" 90 1500
          ∨ r = mkReplay "gen9ou-3" "gen9ou" 80 1800 := by
        simpa [batch1500] using hr
      rcases this with h | h | h <;> subst h <;> decide
    · intro s2 _
      trivial

/-- C9: saving a log through the archive and loading it back returns the
exact original string, provided the gzip codec inverts (the library
contract), and the compressed body is written at
`{base}/{format}/{id}.log.gz`. -/
theorem log_roundtrip_spec :
    ∀ (α : Type) (compress : String → α) (decompress : α → Option String)
      (byteSize : α → Int) (base : FsPath) (fs : List (FsPath × α))
      (rid fmt log : String),
      (∀ s, decompress (compress s) = some s) →
      LogStorage.load decompress base
          (LogStorage.save compress byteSize base fs rid fmt log).1 rid fmt
        = some log
      ∧ (LogStorage.save compress byteSize base fs rid fmt log).2.1
          = base ++ [fmt, rid ++ ".log.gz"] := by
  intro α compress decompress byteSize base fs rid fmt log hinv
  constructor
  · show (match fsRead (fsWrite fs (get_log_path base rid fmt) (compress log))
            (get_log_path base rid fmt) with
          | none => none
          | some data => decompress data) = some log
    unfold fsWrite fsRead
    rw [if_pos rfl]
    exact hinv log
  · rfl

/-- C9 witness: a concrete round trip with the identity codec. -/
theorem log_roundtrip_spec_witness :
    LogStorage.load (fun s => some s) ["data", "logs"]
        (LogStorage.save (fun s => s) (fun s => (s.length : Int)) ["data", "logs"]
          [] "gen9ou-123" "gen9ou" "|start|").1 "gen9ou-123" "gen9ou"
      = some "|start|" :=
  (log_roundtrip_spec String (fun s => s) (fun s => some s)
    (fun s => (s.length : Int)) ["data", "logs"] [] "gen9ou-123" "gen9ou"
    "|start|" (fun _ => rfl)).1

/-- C8: the first store call of every `LogFetcher.run` invocation names a
method `Database` does not define, and the second passes keyword arguments
(`min_elo`, among others) that the defined `get_replays_without_logs`
(parameter list `["limit"]`) does not accept — so the sweep cannot reach
its query/backoff logic against the src/ store. -/
theorem backfill_interface_bug :
    logFetcherRunDbCalls.map Prod.fst
        = ["count_replays_without_logs", "get_replays_without_logs",
           "mark_log_fetched"]
    ∧ ¬ ("count_replays_without_logs" ∈ databaseReplayMethods.map Prod.fst)
    ∧ (∃ ps, logFetcherRunDbCalls.get? 1
          = some ("get_replays_without_logs", ps) ∧ "min_elo" ∈ ps)
    ∧ ((databaseReplayMethods.filter
          (fun e => e.1 == "get_replays_without_logs")).map Prod.snd
        = [["limit"]]
       ∧ ¬ "min_elo" ∈ (["limit"] : List String)) := by
  refine ⟨rfl, by decide,
    ⟨["limit", "min_elo", "max_elo", "format_id"], rfl, by decide⟩,
    by decide, by decide⟩

theorem processOne_le (f : String → Option Int) (s : FetchState) (r : Replay) :
    (processOne f s r).total_fetched ≤ s.total_fetched + 1 := by
  unfold processOne
  cases f r.id with
  | none => simp
  | some sz => simp

theorem fetcherInner_le (f : String → Option Int) (N : Int) :
    ∀ (rs : List Replay) (s : FetchState),
      s.total_fetched + rs.length ≤ N →
      (fetcherInner f (some N) rs s).total_fetched ≤ N := by
  intro rs
  induction rs with
  | nil =>
    intro s h
    show s.total_fetched ≤ N
    simpa using h
  | cons r rest ih =>
    intro s h
    have hstep := processOne_le f s r
    show (if limitHit (some N) (processOne f s r).total_fetched = true
          then processOne f s r
          else fetcherInner f (some N) rest (processOne f s r)).total_fetched ≤ N
    simp only [List.length_cons] at h
    split_ifs with hb
    · push_cast at h
      omega
    · apply ih
      push_cast at h ⊢
      omega

theorem fetcherLoop_le (f : String → Option Int) (minE maxE : Option Int)
    (fmt : Option String) (N : Int) :
    ∀ (fuel : Nat) (s : FetchState), s.total_fetched ≤ N →
      (fetcherLoop f (some N) minE maxE fmt fuel s).1.total_fetched ≤ N := by
  intro fuel
  induction fuel with
  | zero =>
    intro s h
    exact h
  | succ fuel ih =>
    intro s h
    show (if (min 10 (N - s.total_fetched) : Int) ≤ 0 then (s, true)
          else match get_replays_without_logs_spec s.db
              (min 10 (N - s.total_fetched)).toNat minE maxE fmt with
            | [] => (s, true)
            | r :: rest =>
              fetcherLoop f (some N) minE maxE fmt fuel
                (fetcherInner f (some N) (r :: rest) s)).1.total_fetched ≤ N
    split_ifs with hcl
    · exact h
    · push_neg at hcl
      cases hq : get_replays_without_logs_spec s.db
          (min 10 (N - s.total_fetched)).toNat minE maxE fmt with
      | nil => simp only [hq]; exact h
      | cons r rest =>
        simp only [hq]
        apply ih
        apply fetcherInner_le
        have hlen : (r :: rest).length ≤ (min 10 (N - s.total_fetched)).toNat := by
          rw [← hq]
          exact List.length_take_le _ _
        have hcast : ((min 10 (N - s.total_fetched)).toNat : Int)
            = min 10 (N - s.total_fetched) :=
          Int.toNat_of_nonneg (le_of_lt hcl)
        have hmin : (min 10 (N - s.total_fetched) : Int) ≤ N - s.total_fetched :=
          min_le_right _ _
        have hlen2 : ((r :: rest).length : Int) ≤ min 10 (N - s.total_fetched) := by
          rw [← hcast]
          exact_mod_cast hlen
        omega

/-- C10: with a non-`None` limit `N ≥ 0`, the backfill sweep never fetches
more than `N` logs: the loop preserves `total_fetched ≤ N`, and within a
batch the inner loop stops immediately — without touching the remaining
rows — as soon as the total reaches a truthy limit.  (Settled against the
spec-modelled store queries; see `get_replays_without_logs_spec`.) -/
theorem backfill_limit_spec :
    (∀ (f : String → Option Int) (db0 : List Replay) (N : Int)
       (minE maxE : Option Int) (fmt : Option String) (fuel : Nat), 0 ≤ N →
       LogFetcher_run f db0 (some N) minE maxE fmt fuel ≤ N)
    ∧ (∀ (f : String → Option Int) (N : Int) (minE maxE : Option Int)
         (fmt : Option String) (fuel : Nat) (s : FetchState),
       s.total_fetched ≤ N →
       (fetcherLoop f (some N) minE maxE fmt fuel s).1.total_fetched ≤ N)
    ∧ (∀ (f : String → Option Int) (limit : Option Int) (r : Replay)
         (rest : List Replay) (s : FetchState),
       limitHit limit (processOne f s r).total_fetched = true →
       fetcherInner f limit (r :: rest) s = processOne f s r) := by
  refine ⟨?_, fun f N minE maxE fmt fuel s h => fetcherLoop_le f minE maxE fmt N fuel s h, ?_⟩
  · intro f db0 N minE maxE fmt fuel hN
    unfold LogFetcher_run
    split_ifs with hc
    · exact hN
    · exact fetcherLoop_le f minE maxE fmt N fuel _ hN
  · intro f limit r rest s hb
    show (if limitHit limit (processOne f s r).total_fetched = true
          then processOne f s r
          else fetcherInner f limit rest (processOne f s r)) = processOne f s r
    rw [if_pos hb]

/-- C10 witness: a store with three candidates and limit 1 fetches exactly
at most one log. -/
theorem backfill_limit_spec_witness :
    LogFetcher_run (fun _ => some 1) batch1500 (some 1) none none none 5 ≤ 1 :=
  backfill_limit_spec.1 (fun _ => some 1) batch1500 1 none none none 5 (by decide)

end Scraper
